import Mathlib

/-!
Verification of the scalar reverse-mode autodiff core of `learnrustgrad`
(`src/scalar.rs` and `src/main.rs`).

Shallow embedding conventions:
* `f32` values are modelled as `ℚ` (exact arithmetic captures which
  expression each line of Rust computes; rounding is out of scope).
* The Rust graph is a set of `Scalar` values linked by `&'a Scalar`
  parent references, with the gradient stored in a `RefCell<f32>`.
  We model this as an arena: a `List Node` in creation order, parent
  references as indices into that list, and the mutable gradient cells
  as a state function `ℕ → ℚ` updated by `calc_grad`.
* A Rust `Option::unwrap` panic is modelled as `Option.none` in the
  result of the embedded function.
* `f32::tanh` is transcendental and has no counterpart on `ℚ`; the
  `tanh` builder therefore takes the forward value as an explicit
  parameter `t`.  No derivative rule ever recomputes `tanh` — they only
  read the stored value — so this is faithful for everything proved here.
-/

namespace LearnRustGrad

/-- Operation tags, from `enum ScalarOp` in `src/scalar.rs` (the
superset: `main.rs`'s enum has only `None`, `Add`, `Mul`, `Tanh`). -/
inductive ScalarOp where
  | opNone : ScalarOp
  | add : ScalarOp
  | div : ScalarOp
  | mul : ScalarOp
  | powi : ℤ → ScalarOp
  | tanh : ScalarOp
deriving DecidableEq, Repr

/-- One graph node, from `struct Scalar` in `src/scalar.rs`: forward
value `val`, optional parent references (arena indices), and the
producing operation.  The `grad: RefCell<f32>` field lives outside the
node, in the gradient state `ℕ → ℚ`. -/
structure Node where
  val : ℚ
  lhsParent : Option ℕ
  rhsParent : Option ℕ
  op : ScalarOp
deriving DecidableEq, Repr

/-- The arena of all nodes, in creation order. -/
abbrev Graph := List Node

/-- The gradient cells of all nodes (index ↦ current gradient). -/
abbrev GradState := ℕ → ℚ

/-- Write one gradient cell. -/
def setGrad (γ : GradState) (i : ℕ) (v : ℚ) : GradState :=
  fun j => if j = i then v else γ j

/-- The all-zero gradient state: every `grad` starts as
`RefCell::new(0.0)`. -/
def zeroGrad : GradState := fun _ => 0

/-- Forward value of the node at index `i` (`0` as junk for a dangling
index, which no builder ever creates). -/
def valAt (g : Graph) (i : ℕ) : ℚ :=
  ((g.get? i).map Node.val).getD 0

/-! ## Graph builders

Each builder appends one node to the arena, mirroring one constructor
or operator impl of `src/scalar.rs` (`main.rs` has the identical
`new` / `Add` / `Mul` impls). -/

/-- `Scalar::new(val)`: leaf node, no parents, op `None`. -/
def newS (g : Graph) (v : ℚ) : Graph :=
  g ++ [⟨v, Option.none, Option.none, ScalarOp.opNone⟩]

/-- `impl ops::Add for &Scalar`: `&a + &b`. -/
def addSS (g : Graph) (l r : ℕ) : Graph :=
  g ++ [⟨valAt g l + valAt g r, some l, some r, ScalarOp.add⟩]

/-- `impl ops::Add<f32> for &Scalar`: `&a + c` with `c` a bare `f32`. -/
def addSF (g : Graph) (l : ℕ) (c : ℚ) : Graph :=
  g ++ [⟨valAt g l + c, some l, Option.none, ScalarOp.add⟩]

/-- `impl ops::Add<&Scalar> for f32`: `c + &b`. -/
def addFS (g : Graph) (c : ℚ) (r : ℕ) : Graph :=
  g ++ [⟨c + valAt g r, Option.none, some r, ScalarOp.add⟩]

/-- `impl ops::Mul for &Scalar`: `&a * &b`. -/
def mulSS (g : Graph) (l r : ℕ) : Graph :=
  g ++ [⟨valAt g l * valAt g r, some l, some r, ScalarOp.mul⟩]

/-- `impl ops::Mul<f32> for &Scalar`: `&a * c`. -/
def mulSF (g : Graph) (l : ℕ) (c : ℚ) : Graph :=
  g ++ [⟨valAt g l * c, some l, Option.none, ScalarOp.mul⟩]

/-- `impl ops::Mul<&Scalar> for f32`: `c * &b`. -/
def mulFS (g : Graph) (c : ℚ) (r : ℕ) : Graph :=
  g ++ [⟨c * valAt g r, Option.none, some r, ScalarOp.mul⟩]

/-- `impl ops::Div for &Scalar`: `&a / &b`.  The forward value is the
plain quotient `self.val / rhs.val`, with no check on `rhs.val`. -/
def divSS (g : Graph) (l r : ℕ) : Graph :=
  g ++ [⟨valAt g l / valAt g r, some l, some r, ScalarOp.div⟩]

/-- `Scalar::tanh(&self)`: single lhs parent, op `Tanh`.  `t` stands
for the transcendental forward value `self.val.tanh()`. -/
def tanhS (g : Graph) (l : ℕ) (t : ℚ) : Graph :=
  g ++ [⟨t, some l, Option.none, ScalarOp.tanh⟩]

/-- `Scalar::powi(&self, n)`: single lhs parent, op `Powi(n)`, forward
value `self.val.powi(n)`. -/
def powiS (g : Graph) (l : ℕ) (n : ℤ) : Graph :=
  g ++ [⟨valAt g l ^ n, some l, Option.none, ScalarOp.powi n⟩]

/-- Graphs producible by the public builder API: start empty and apply
any sequence of the builders above, parent indices always pointing at
already-created nodes (a Rust `&'a Scalar` can only reference an
existing value). -/
inductive Built : Graph → Prop where
  | nil : Built []
  | newS {g} (v : ℚ) : Built g → Built (newS g v)
  | addSS {g l r} : Built g → l < g.length → r < g.length → Built (addSS g l r)
  | addSF {g l} (c : ℚ) : Built g → l < g.length → Built (addSF g l c)
  | addFS {g r} (c : ℚ) : Built g → r < g.length → Built (addFS g c r)
  | mulSS {g l r} : Built g → l < g.length → r < g.length → Built (mulSS g l r)
  | mulSF {g l} (c : ℚ) : Built g → l < g.length → Built (mulSF g l c)
  | mulFS {g r} (c : ℚ) : Built g → r < g.length → Built (mulFS g c r)
  | divSS {g l r} : Built g → l < g.length → r < g.length → Built (divSS g l r)
  | tanhS {g l} (t : ℚ) : Built g → l < g.length → Built (tanhS g l t)
  | powiS {g l} (n : ℤ) : Built g → l < g.length → Built (powiS g l n)

/-! ## The backward step of `src/scalar.rs`

`Scalar::calc_grad(&self)` (lines 68–114).  Each `match` arm reads the
node's parents (`unwrap` = `Option.none` on a missing parent), then
updates the parents' gradient cells left-then-right.  Rust evaluates
the right-hand side of an assignment before the place expression, so
each `*self.grad.borrow()` reads the state as of its own statement. -/

namespace Sc

/-- Embedding of `Scalar::calc_grad` from `src/scalar.rs`. -/
def calcGrad (g : Graph) (i : ℕ) (γ : GradState) : Option GradState :=
  match g.get? i with
  | Option.none => Option.none
  | some self =>
    match self.op with
    | ScalarOp.add =>
      match self.lhsParent, self.rhsParent with
      | some l, some r =>
        let γ₁ := setGrad γ l (γ l + γ i)
        some (setGrad γ₁ r (γ₁ r + γ₁ i))
      | _, _ => Option.none
    | ScalarOp.mul =>
      match self.lhsParent, self.rhsParent with
      | some l, some r =>
        match g.get? l, g.get? r with
        | some lhs, some rhs =>
          let γ₁ := setGrad γ l (γ l + γ i / rhs.val)
          some (setGrad γ₁ r (γ₁ r + γ₁ i * lhs.val * rhs.val ^ (-2 : ℤ)))
        | _, _ => Option.none
      | _, _ => Option.none
    | ScalarOp.div =>
      match self.lhsParent, self.rhsParent with
      | some l, some r =>
        match g.get? l, g.get? r with
        | some lhs, some rhs =>
          let γ₁ := setGrad γ l (γ l + γ i * rhs.val)
          some (setGrad γ₁ r (γ₁ r + γ₁ i * lhs.val))
        | _, _ => Option.none
      | _, _ => Option.none
    | ScalarOp.tanh =>
      match self.lhsParent with
      | some l =>
        some (setGrad γ l (γ l + (1 - self.val * self.val) * γ i))
      | _ => Option.none
    | ScalarOp.powi n =>
      match self.lhsParent with
      | some l =>
        match g.get? l with
        | some lhs =>
          some (setGrad γ l (γ l + lhs.val ^ (n - 1) * γ i))
        | _ => Option.none
      | _ => Option.none
    | ScalarOp.opNone => some γ

end Sc

/-! ## The backward step of `src/main.rs`

`main.rs` carries its own, earlier copy of `Scalar::calc_grad`
(lines 66–97) whose `Mul` arm is the plain product rule
(`+= g * rhs.val` / `+= g * lhs.val`).  Its `ScalarOp` has no `Div` or
`Powi`; on the shared op type those tags fall into the wildcard arm
(no-op), which they can never reach from a `main.rs` graph. -/

namespace MainRs

/-- Embedding of `Scalar::calc_grad` from `src/main.rs`. -/
def calcGrad (g : Graph) (i : ℕ) (γ : GradState) : Option GradState :=
  match g.get? i with
  | Option.none => Option.none
  | some self =>
    match self.op with
    | ScalarOp.add =>
      match self.lhsParent, self.rhsParent with
      | some l, some r =>
        let γ₁ := setGrad γ l (γ l + γ i)
        some (setGrad γ₁ r (γ₁ r + γ₁ i))
      | _, _ => Option.none
    | ScalarOp.mul =>
      match self.lhsParent, self.rhsParent with
      | some l, some r =>
        match g.get? l, g.get? r with
        | some lhs, some rhs =>
          let γ₁ := setGrad γ l (γ l + γ i * rhs.val)
          some (setGrad γ₁ r (γ₁ r + γ₁ i * lhs.val))
        | _, _ => Option.none
      | _, _ => Option.none
    | ScalarOp.tanh =>
      match self.lhsParent with
      | some l =>
        some (setGrad γ l (γ l + (1 - self.val * self.val) * γ i))
      | _ => Option.none
    | _ => some γ

end MainRs

/-- Run a caller-supplied sequence of `calc_grad` calls, as `main.rs`
lines 230–239 do, threading the gradient state; `step` is the per-node
backward step (one of the two `calcGrad` embeddings). -/
def runSeq (step : Graph → ℕ → GradState → Option GradState)
    (g : Graph) : List ℕ → GradState → Option GradState
  | [], γ => some γ
  | i :: rest, γ =>
    match step g i γ with
    | some γ' => runSeq step g rest γ'
    | Option.none => Option.none

/-- `i` is recorded as a parent of the node at index `c`. -/
def isParentIdx (g : Graph) (p c : ℕ) : Bool :=
  match g.get? c with
  | some n => n.lhsParent == some p || n.rhsParent == some p
  | Option.none => false

/-- `ord` lists every node before both of its parents (the defining
property of a reverse-topological order on the parent edges, for the
nodes it mentions). -/
def noParentBefore (g : Graph) : List ℕ → Bool
  | [] => true
  | x :: rest => rest.all (fun y => !(isParentIdx g x y)) && noParentBefore g rest

/-! ## Concrete graphs used in the claim theorems -/

/-- `let a = Scalar::new(3.0); let b = Scalar::new(2.0); let m = &a * &b`:
node 0 is `a`, node 1 is `b`, node 2 is the `Mul` node. -/
def mulGraph : Graph := mulSS (newS (newS [] 3) 2) 0 1

/-- Gradient state after seeding the `Mul` root: `*m.grad.borrow_mut() = 1.0`. -/
def mulSeed : GradState := setGrad zeroGrad 2 1

/-- `let a = Scalar::new(6.0); let b = Scalar::new(2.0); let d = &a / &b`:
node 0 is `a`, node 1 is `b`, node 2 is the `Div` node (value `3`). -/
def divGraph : Graph := divSS (newS (newS [] 6) 2) 0 1

/-- Gradient state after seeding the `Div` root to `1.0`. -/
def divSeed : GradState := setGrad zeroGrad 2 1

/-- `let a = Scalar::new(2.0); let p = a.powi(3)`: node 0 is `a`,
node 1 is the `Powi(3)` node (value `8`). -/
def powGraph : Graph := powiS (newS [] 2) 0 3

/-- Gradient state after seeding the `Powi` root to `1.0`. -/
def powSeed : GradState := setGrad zeroGrad 1 1

/-- `let a = Scalar::new(2.0); let d = &a + 5.0`: node 1 has op `Add`,
lhs parent node 0, and **no** rhs parent. -/
def constAddR : Graph := addSF (newS [] 2) 0 5

/-- `let a = Scalar::new(2.0); let d = 5.0 + &a`: constant on the left. -/
def constAddL : Graph := addFS (newS [] 2) 5 0

/-- `let a = Scalar::new(2.0); let d = &a * 5.0`. -/
def constMulR : Graph := mulSF (newS [] 2) 0 5

/-- `let a = Scalar::new(2.0); let d = 5.0 * &a`. -/
def constMulL : Graph := mulFS (newS [] 2) 5 0

/-- `divide(Node(1.0), Node(0.0))`: node 0 has value `1`, node 1 has
value `0`, node 2 is built by `&n0 / &n1`. -/
def divZeroGraph : Graph := divSS (newS (newS [] 1) 0) 0 1

end LearnRustGrad

namespace LearnRustGrad

/-- Modelled from the spec: the `DivisionByZero` error of the error
taxonomy (section 7).  No error type exists anywhere in the source; this
type only gives the spec side of claim C6 a formal reading. -/
inductive DivideError where
  | divisionByZero : DivideError
deriving DecidableEq, Repr

/-- Modelled from the spec: `divide(a, b)` "fails with DivisionByZero
when b.value == 0", otherwise yields the quotient (section 4.1 and the
section 8 divide-by-zero scenario).  The source divide operator has no
such failure path. -/
def specDivide (a b : ℚ) : Except DivideError ℚ :=
  if b = 0 then Except.error DivideError.divisionByZero else Except.ok (a / b)

end LearnRustGrad

namespace LearnRustGrad

/-- Claim C1: for a `Mul` node with both parents present and incoming
gradient `g`, `calc_grad` adds `g * right.value` to the left parent and
`g * left.value` to the right parent.  Refuted by `src/scalar.rs`: on
the graph `m = a * b` with `a.val = 3`, `b.val = 2`, seed `g = 1`, the
`Mul` branch of `scalar.rs` (lines 80–89) computes `a.grad = g / b.val
= 1/2` and `b.grad = g * a.val * b.val.powi(-2) = 3/4`, not the claimed
`(g * 2, g * 3) = (2, 3)`.  The older copy of `calc_grad` in
`src/main.rs` (lines 78–87) does produce the claimed `(2, 3)`. -/
theorem c1_scalar_rs_mul_branch_deviates :
    (Sc.calcGrad mulGraph 2 mulSeed).map (fun γ => (γ 0, γ 1)) = some (1/2, 3/4)
    ∧ ¬ (Sc.calcGrad mulGraph 2 mulSeed).map (fun γ => (γ 0, γ 1)) = some (2, 3)
    ∧ (MainRs.calcGrad mulGraph 2 mulSeed).map (fun γ => (γ 0, γ 1)) = some (2, 3) := by
  refine ⟨?_, ?_, ?_⟩ <;>
    norm_num [Sc.calcGrad, MainRs.calcGrad, mulGraph, mulSeed, mulSS, newS,
      setGrad, zeroGrad, valAt, List.get?]

/-- Claim C2: for a `Div` node with both parents present and incoming
gradient `g`, `calc_grad` adds `g * (1 / right.value)` to the left
parent and `g * (-left.value / right.value^2)` to the right parent.
Refuted by `src/scalar.rs`: on the graph `d = a / b` with `a.val = 6`,
`b.val = 2`, seed `g = 1`, the `Div` branch (lines 90–99) computes
`a.grad = g * b.val = 2` and `b.grad = g * a.val = 6` (the product
rule), not the claimed quotient rule values `(1/2, -3/2)`. -/
theorem c2_scalar_rs_div_branch_deviates :
    (Sc.calcGrad divGraph 2 divSeed).map (fun γ => (γ 0, γ 1)) = some (2, 6)
    ∧ ¬ (Sc.calcGrad divGraph 2 divSeed).map (fun γ => (γ 0, γ 1)) = some (1/2, -(3/2)) := by
  refine ⟨?_, ?_⟩ <;>
    norm_num [Sc.calcGrad, divGraph, divSeed, divSS, newS,
      setGrad, zeroGrad, valAt, List.get?]

/-- Claim C3: for a `Powi(n)` node with left parent present and
incoming gradient `g`, `calc_grad` adds `g * n * left.value^(n-1)` to
the left parent.  Refuted by `src/scalar.rs`: on `p = a.powi(3)` with
`a.val = 2`, seed `g = 1`, the `Powi` branch (lines 106–111) computes
`a.grad = a.val.powi(n-1) * g = 4`, dropping the factor `n`; the
claimed value is `1 * 3 * 2^2 = 12`. -/
theorem c3_scalar_rs_powi_branch_drops_n :
    (Sc.calcGrad powGraph 1 powSeed).map (fun γ => γ 0) = some 4
    ∧ ¬ (Sc.calcGrad powGraph 1 powSeed).map (fun γ => γ 0) = some 12 := by
  refine ⟨?_, ?_⟩ <;>
    norm_num [Sc.calcGrad, powGraph, powSeed, powiS, newS,
      setGrad, zeroGrad, valAt, List.get?]

/-- Claim C5: `calc_grad` on a node built from one `Scalar` and one
bare `f32` constant succeeds and routes the gradient to the single
`Scalar` parent.  Refuted by `src/scalar.rs`: all four constant
variants (`&a + 5.0`, `5.0 + &a`, `&a * 5.0`, `5.0 * &a` with
`a.val = 2`) record one parent as `None`, and the `Add`/`Mul` branches
of `calc_grad` (lines 70–89) `unwrap()` both parents, so the call
panics (embedded as `Option.none`) instead of succeeding.  The forward
values of the constant-on-left and constant-on-right variants do
agree, as the claim states. -/
theorem c5_const_operand_calc_grad_panics :
    Sc.calcGrad constAddR 1 (setGrad zeroGrad 1 1) = Option.none
    ∧ Sc.calcGrad constAddL 1 (setGrad zeroGrad 1 1) = Option.none
    ∧ Sc.calcGrad constMulR 1 (setGrad zeroGrad 1 1) = Option.none
    ∧ Sc.calcGrad constMulL 1 (setGrad zeroGrad 1 1) = Option.none
    ∧ (constAddR.get? 1).map Node.val = (constAddL.get? 1).map Node.val
    ∧ (constMulR.get? 1).map Node.val = (constMulL.get? 1).map Node.val := by
  refine ⟨?_, ?_, ?_, ?_, ?_, ?_⟩ <;>
    norm_num [Sc.calcGrad, constAddR, constAddL, constMulR, constMulL,
      addSF, addFS, mulSF, mulFS, newS, setGrad, zeroGrad, valAt, List.get?]

/-- Claim C6 counterexample: `divide(Node(1.0), Node(0.0))` does not
fail — `impl ops::Div for &Scalar` (`src/scalar.rs` lines 185–195)
unconditionally constructs a `Div` node with both parents present.  The
spec-side `specDivide` would return `DivisionByZero` here, but the
source has no error path at all (in `f32` the stored value is the
silent quotient `1.0 / 0.0 = +inf`). -/
theorem c6_div_by_zero_not_raised :
    (divZeroGraph.get? 2).map Node.op = some ScalarOp.div
    ∧ (divZeroGraph.get? 2).map (fun n => (n.lhsParent, n.rhsParent))
        = some (some 0, some 1)
    ∧ specDivide 1 0 = Except.error DivideError.divisionByZero := by
  refine ⟨?_, ?_, ?_⟩ <;>
    norm_num [divZeroGraph, divSS, newS, valAt, List.get?, specDivide]

/-- Claim C6 amended: the divide builder performs no zero check — even
when the right operand has value `0`, `&a / &b` appends a normal `Div`
node holding the raw quotient, with both parents recorded; no
`DivisionByZero` error exists in the source. -/
theorem c6_div_builder_has_no_zero_check (g : Graph) (l r : ℕ)
    (h : valAt g r = 0) :
    (divSS g l r).get? g.length
      = some ⟨valAt g l / valAt g r, some l, some r, ScalarOp.div⟩ := by
  simp [divSS, List.get?_concat_length g]

/-- Witness for `c6_div_builder_has_no_zero_check` at the concrete
graph of `divide(Node(1.0), Node(0.0))`. -/
theorem c6_div_builder_has_no_zero_check_witness :
    valAt (newS (newS [] 1) 0) 1 = 0
    ∧ (divSS (newS (newS [] 1) 0) 0 1).get? (newS (newS [] 1) 0).length
      = some ⟨valAt (newS (newS [] 1) 0) 0 / valAt (newS (newS [] 1) 0) 1,
          some 0, some 1, ScalarOp.div⟩ :=
  ⟨by norm_num [newS, valAt, List.get?],
   c6_div_builder_has_no_zero_check (newS (newS [] 1) 0) 0 1
     (by norm_num [newS, valAt, List.get?])⟩

/-- Fan-out graph from the spec (section 8): node 0 is `P`, node 1 is
`A`, node 2 is `B`, node 3 is `m1 = &P * &A`, node 4 is `m2 = &P * &B`,
node 5 is the root `&m1 + &m2`. -/
def fanGraph (p a b : ℚ) : Graph :=
  addSS (mulSS (mulSS (newS (newS (newS [] p) a) b) 0 1) 0 2) 3 4

/-- Claim C7: with `m1 = P * A`, `m2 = P * B` and the backward pass
rooted at `m1 + m2` (seed `1.0`, every other gradient `0.0`), the two
multiplication nodes each add their contribution to `P.grad`, which
ends at `A.value + B.value` — accumulation is additive, never
overwriting.  Proved for the `calc_grad` of `src/main.rs` (cited by the
claim; its `Mul` arm is the product rule), running the per-node calls
in the manual reverse-creation order the demo uses. -/
theorem c7_fan_out_gradient_sums (p a b : ℚ) :
    (runSeq MainRs.calcGrad (fanGraph p a b) [5, 3, 4, 2, 1, 0]
        (setGrad zeroGrad 5 1)).map (fun γ => γ 0) = some (a + b) := by
  norm_num [runSeq, MainRs.calcGrad, fanGraph, addSS, mulSS, newS,
    setGrad, zeroGrad, valAt, List.get?]

/-- Claim C4 counterexample: the gradients produced by the per-node
`calc_grad` calls depend on the order the caller chooses.  On the
fan-out graph (`P.val = 7`, `A.val = 2`, `B.val = 3`) the
reverse-creation order gives `P.grad = 5` while creation order gives
`P.grad = 0`: the code has no `run(root)` that computes the traversal
itself — the caller hand-orders it (`src/main.rs` lines 230–239). -/
theorem c4_caller_order_changes_gradients :
    (runSeq MainRs.calcGrad (fanGraph 7 2 3) [5, 3, 4, 2, 1, 0]
        (setGrad zeroGrad 5 1)).map (fun γ => γ 0) = some 5
    ∧ (runSeq MainRs.calcGrad (fanGraph 7 2 3) [0, 1, 2, 3, 4, 5]
        (setGrad zeroGrad 5 1)).map (fun γ => γ 0) = some 0
    ∧ ((5 : ℚ) ≠ 0) := by
  refine ⟨?_, ?_, by norm_num⟩ <;>
    norm_num [runSeq, MainRs.calcGrad, fanGraph, addSS, mulSS, newS,
      setGrad, zeroGrad, valAt, List.get?]

/-- The neuron demo graph of `src/main.rs` (lines 213–226): nodes
0–4 are the leaves `x1 = 2`, `x2 = 0`, `w1 = -3`, `w2 = 1`,
`b = 6.8813735870195432`; node 5 is `x1w1 = &x1 * &w1`, node 6 is
`x2w2 = &x2 * &w2`, node 7 is `&x1w1 + &x2w2`, node 8 is `n = _ + &b`,
node 9 is `o = n.tanh()` with forward value `t` (a parameter standing
for the transcendental `f32::tanh`). -/
def demoGraph (t : ℚ) : Graph :=
  tanhS (addSS (addSS (mulSS (mulSS
    (newS (newS (newS (newS (newS [] 2) 0) (-3)) 1) (68813735870195432 / 10 ^ 16))
    0 2) 1 3) 5 6) 7 4) 8 t

/-- The manual `calc_grad` call sequence of `src/main.rs` lines
230–239: `o, n, x1w1x2w2, x1w1, x2w2, b, w2, w1, x2, x1`. -/
def mainOrder : List ℕ := [9, 8, 7, 5, 6, 4, 3, 2, 1, 0]

/-- Claim C4 amended: the source exposes only the per-node `calc_grad`;
the backward pass is the hand-written call sequence in `main`, in
reverse creation order.  For the demo graph that order does list every
node before both of its parents (a valid reverse-topological order),
and running it produces the chain-rule gradients
`x1 ↦ -3(1-t²)`, `x2 ↦ (1-t²)`, `w1 ↦ 2(1-t²)`, `w2 ↦ 0`,
`b ↦ (1-t²)` for any tanh output `t` — but the order is supplied by
the caller, not computed by an executor. -/
theorem c4_manual_sequence_is_reverse_topological (t : ℚ) :
    noParentBefore (demoGraph t) mainOrder = true
    ∧ (runSeq MainRs.calcGrad (demoGraph t) mainOrder (setGrad zeroGrad 9 1)).map
        (fun γ => (γ 0, γ 1, γ 2, γ 3, γ 4))
      = some (-3 * (1 - t * t), 1 - t * t, 2 * (1 - t * t), 0, 1 - t * t) := by
  constructor
  · rfl
  · norm_num [runSeq, MainRs.calcGrad, demoGraph, mainOrder, tanhS, addSS,
      mulSS, newS, setGrad, zeroGrad, valAt, List.get?]
    ring_nf
    exact ⟨trivial, trivial⟩

/-- The parent-slot shape every builder actually produces (the amended
C8 invariant): `None` nodes are exactly the parentless ones, `Div`
nodes have both parents, `Add`/`Mul` nodes have at least the operand
that was a `Scalar` (both when both operands were), and `Tanh`/`Powi`
nodes have exactly a left parent. -/
def nodeInv (n : Node) : Prop :=
  (n.op = ScalarOp.opNone ↔ n.lhsParent = Option.none ∧ n.rhsParent = Option.none)
  ∧ (n.op = ScalarOp.div → n.lhsParent.isSome ∧ n.rhsParent.isSome)
  ∧ ((n.op = ScalarOp.add ∨ n.op = ScalarOp.mul) →
      n.lhsParent.isSome ∨ n.rhsParent.isSome)
  ∧ ((n.op = ScalarOp.tanh ∨ ∃ k, n.op = ScalarOp.powi k) →
      n.lhsParent.isSome ∧ n.rhsParent = Option.none)

/-- Membership in a one-node extension of an already-checked graph. -/
theorem nodeInv_append {g : Graph} {x n : Node}
    (ih : ∀ m ∈ g, nodeInv m) (hx : nodeInv x) (hn : n ∈ g ++ [x]) :
    nodeInv n := by
  rcases List.mem_append.mp hn with h | h
  · exact ih n h
  · rw [List.mem_singleton] at h
    subst h
    exact hx

/-- Claim C8 counterexample: `&a + 5.0` (with `a = Scalar::new(2.0)`,
`impl ops::Add<f32> for &Scalar`, `src/scalar.rs` lines 133–139)
creates a node whose op is `Add` but whose rhs parent is absent, so
"op `Add` implies both parents present" fails on builder output. -/
theorem c8_const_add_has_one_parent :
    ¬ ∀ n ∈ constAddR, n.op = ScalarOp.add →
        n.lhsParent.isSome ∧ n.rhsParent.isSome := by
  intro h
  have hm : (⟨7, some 0, Option.none, ScalarOp.add⟩ : Node) ∈ constAddR := by
    norm_num [constAddR, addSF, newS, valAt, List.get?]
  have := h _ hm rfl
  simp at this

/-- Claim C8 amended: for every node created through the public builder
operations, `Divide` nodes have both parents present; `Add`/`Multiply`
nodes have both parents when built from two `Scalar`s and exactly the
`Scalar`-side parent when built from a `Scalar` and a bare constant
(so at least one parent); `Tanh`/`Powi` nodes have exactly a left
parent; and op `None` holds exactly for the parentless leaf nodes. -/
theorem c8_builder_parent_shape (g : Graph) (hg : Built g) :
    ∀ n ∈ g, nodeInv n := by
  induction hg with
  | nil =>
      intro n hn
      simp at hn
  | newS v hb ih =>
      intro n hn
      exact nodeInv_append ih (by simp [nodeInv]) hn
  | addSS hb hl hr ih =>
      intro n hn
      exact nodeInv_append ih (by simp [nodeInv]) hn
  | addSF c hb hl ih =>
      intro n hn
      exact nodeInv_append ih (by simp [nodeInv]) hn
  | addFS c hb hr ih =>
      intro n hn
      exact nodeInv_append ih (by simp [nodeInv]) hn
  | mulSS hb hl hr ih =>
      intro n hn
      exact nodeInv_append ih (by simp [nodeInv]) hn
  | mulSF c hb hl ih =>
      intro n hn
      exact nodeInv_append ih (by simp [nodeInv]) hn
  | mulFS c hb hr ih =>
      intro n hn
      exact nodeInv_append ih (by simp [nodeInv]) hn
  | divSS hb hl hr ih =>
      intro n hn
      exact nodeInv_append ih (by simp [nodeInv]) hn
  | tanhS t hb hl ih =>
      intro n hn
      exact nodeInv_append ih (by simp [nodeInv]) hn
  | powiS k hb hl ih =>
      intro n hn
      exact nodeInv_append ih (by simp [nodeInv]) hn

/-- Witness for `c8_builder_parent_shape` on the concrete built graph
`a = Scalar::new(2.0); d = &a + 5.0`, read off at the `Add` node. -/
theorem c8_builder_parent_shape_witness :
    Built constAddR ∧ nodeInv ⟨7, some 0, Option.none, ScalarOp.add⟩ := by
  have hb : Built constAddR := by
    have h0 : Built (newS [] 2) := Built.newS 2 Built.nil
    exact Built.addSF 5 h0 (by norm_num [newS])
  refine ⟨hb, c8_builder_parent_shape constAddR hb _ ?_⟩
  norm_num [constAddR, addSF, newS, valAt, List.get?]

/-- The concrete `Tanh` graph `a = Scalar::new(1.0); o = a.tanh()`
(with stored tanh value `1/2` standing for `tanh(1.0)`). -/
def tanhNode : Node := ⟨1/2, some 0, Option.none, ScalarOp.tanh⟩

/-- Arena for the concrete `Tanh` graph. -/
def tanhGraph : Graph := tanhS (newS [] 1) 0 (1/2)

/-- Seeded gradient state for the concrete `Tanh` graph. -/
def tanhSeed : GradState := setGrad zeroGrad 1 1

/-- Claim C9: for every node whose op is `Tanh` with left parent
present and incoming gradient `g = out.gradient`, `calc_grad`
(`src/scalar.rs` lines 100–105) adds `g * (1 - out.value^2)` to the
left parent, and the resulting state is a single-cell update — no
right parent (or any other cell) is touched. -/
theorem c9_tanh_backward_rule (g : Graph) (i l : ℕ) (n : Node) (γ : GradState)
    (hn : g.get? i = some n) (hop : n.op = ScalarOp.tanh)
    (hl : n.lhsParent = some l) :
    Sc.calcGrad g i γ = some (setGrad γ l (γ l + γ i * (1 - n.val * n.val))) := by
  simp only [Sc.calcGrad, hn, hop, hl]
  congr 1
  funext j
  simp only [setGrad]
  split
  · ring
  · rfl

/-- Witness for `c9_tanh_backward_rule` on the concrete `Tanh` graph. -/
theorem c9_tanh_backward_rule_witness :
    tanhGraph.get? 1 = some tanhNode
    ∧ tanhNode.op = ScalarOp.tanh
    ∧ tanhNode.lhsParent = some 0
    ∧ Sc.calcGrad tanhGraph 1 tanhSeed
      = some (setGrad tanhSeed 0
          (tanhSeed 0 + tanhSeed 1 * (1 - tanhNode.val * tanhNode.val))) :=
  ⟨by norm_num [tanhGraph, tanhNode, tanhS, newS, valAt, List.get?], rfl, rfl,
   c9_tanh_backward_rule tanhGraph 1 0 tanhNode tanhSeed
     (by norm_num [tanhGraph, tanhNode, tanhS, newS, valAt, List.get?]) rfl rfl⟩

end LearnRustGrad

namespace LearnRustGrad

/-- A one-node leaf graph `Scalar::new(2.0)`. -/
def leafGraph : Graph := newS [] 2

/-- The leaf node of `leafGraph`. -/
def leafNode : Node := ⟨2, Option.none, Option.none, ScalarOp.opNone⟩

/-- Claim C10: a `calc_grad` call writes at most the gradient cells of
the two recorded parents of the node it is called on: every other
gradient cell is unchanged, and on a leaf node (op `None`) the call
changes nothing at all.  (`calc_grad` takes `&self` and the only
interior-mutable field is `grad`, so values, operation tags and parent
references are immutable by construction — the embedding reflects this
by making the gradient map the entire mutable state.) -/
theorem c10_calc_grad_frame (g : Graph) (i : ℕ) (n : Node) (γ γ' : GradState)
    (hn : g.get? i = some n) (h : Sc.calcGrad g i γ = some γ') :
    (∀ j, n.lhsParent ≠ some j → n.rhsParent ≠ some j → γ' j = γ j)
    ∧ (n.op = ScalarOp.opNone → ∀ j, γ' j = γ j) := by
  obtain ⟨v, lp, rp, op⟩ := n
  cases op with
  | opNone =>
      simp only [Sc.calcGrad, hn, Option.some.injEq] at h
      subst h
      exact ⟨fun j _ _ => rfl, fun _ j => rfl⟩
  | add =>
      cases lp with
      | none =>
          simp only [Sc.calcGrad, hn] at h
          exact Option.noConfusion h
      | some l =>
        cases rp with
        | none =>
          simp only [Sc.calcGrad, hn] at h
          exact Option.noConfusion h
        | some r =>
          simp only [Sc.calcGrad, hn, Option.some.injEq] at h
          subst h
          refine ⟨fun j hjl hjr => ?_, fun hop => ScalarOp.noConfusion hop⟩
          have hl : j ≠ l := fun e => hjl (congrArg some e.symm)
          have hr : j ≠ r := fun e => hjr (congrArg some e.symm)
          simp [setGrad, hl, hr]
  | mul =>
      cases lp with
      | none =>
          simp only [Sc.calcGrad, hn] at h
          exact Option.noConfusion h
      | some l =>
        cases rp with
        | none =>
          simp only [Sc.calcGrad, hn] at h
          exact Option.noConfusion h
        | some r =>
          rcases hgl : g.get? l with _ | lhs
          · simp only [Sc.calcGrad, hn, hgl] at h
            exact Option.noConfusion h
          · rcases hgr : g.get? r with _ | rhs
            · simp only [Sc.calcGrad, hn, hgl, hgr] at h
              exact Option.noConfusion h
            · simp only [Sc.calcGrad, hn, hgl, hgr, Option.some.injEq] at h
              subst h
              refine ⟨fun j hjl hjr => ?_, fun hop => ScalarOp.noConfusion hop⟩
              have hl : j ≠ l := fun e => hjl (congrArg some e.symm)
              have hr : j ≠ r := fun e => hjr (congrArg some e.symm)
              simp [setGrad, hl, hr]
  | div =>
      cases lp with
      | none =>
          simp only [Sc.calcGrad, hn] at h
          exact Option.noConfusion h
      | some l =>
        cases rp with
        | none =>
          simp only [Sc.calcGrad, hn] at h
          exact Option.noConfusion h
        | some r =>
          rcases hgl : g.get? l with _ | lhs
          · simp only [Sc.calcGrad, hn, hgl] at h
            exact Option.noConfusion h
          · rcases hgr : g.get? r with _ | rhs
            · simp only [Sc.calcGrad, hn, hgl, hgr] at h
              exact Option.noConfusion h
            · simp only [Sc.calcGrad, hn, hgl, hgr, Option.some.injEq] at h
              subst h
              refine ⟨fun j hjl hjr => ?_, fun hop => ScalarOp.noConfusion hop⟩
              have hl : j ≠ l := fun e => hjl (congrArg some e.symm)
              have hr : j ≠ r := fun e => hjr (congrArg some e.symm)
              simp [setGrad, hl, hr]
  | tanh =>
      cases lp with
      | none =>
          simp only [Sc.calcGrad, hn] at h
          exact Option.noConfusion h
      | some l =>
        simp only [Sc.calcGrad, hn, Option.some.injEq] at h
        subst h
        refine ⟨fun j hjl _ => ?_, fun hop => ScalarOp.noConfusion hop⟩
        have hl : j ≠ l := fun e => hjl (congrArg some e.symm)
        simp [setGrad, hl]
  | powi k =>
      cases lp with
      | none =>
          simp only [Sc.calcGrad, hn] at h
          exact Option.noConfusion h
      | some l =>
        rcases hgl : g.get? l with _ | lhs
        · simp only [Sc.calcGrad, hn, hgl] at h
          exact Option.noConfusion h
        · simp only [Sc.calcGrad, hn, hgl, Option.some.injEq] at h
          subst h
          refine ⟨fun j hjl _ => ?_, fun hop => ScalarOp.noConfusion hop⟩
          have hl : j ≠ l := fun e => hjl (congrArg some e.symm)
          simp [setGrad, hl]

/-- Witness for `c10_calc_grad_frame` on the leaf graph: `calc_grad`
on a leaf succeeds and leaves every gradient cell untouched. -/
theorem c10_calc_grad_frame_witness :
    leafGraph.get? 0 = some leafNode
    ∧ Sc.calcGrad leafGraph 0 zeroGrad = some zeroGrad
    ∧ ((∀ j, leafNode.lhsParent ≠ some j → leafNode.rhsParent ≠ some j →
          zeroGrad j = zeroGrad j)
        ∧ (leafNode.op = ScalarOp.opNone → ∀ j, zeroGrad j = zeroGrad j)) :=
  ⟨by norm_num [leafGraph, leafNode, newS, List.get?],
   by norm_num [Sc.calcGrad, leafGraph, leafNode, newS, List.get?],
   c10_calc_grad_frame leafGraph 0 leafNode zeroGrad zeroGrad
     (by norm_num [leafGraph, leafNode, newS, List.get?])
     (by norm_num [Sc.calcGrad, leafGraph, leafNode, newS, List.get?])⟩

end LearnRustGrad
